import Mathlib

/-!
# Spruce-ERP lead store: shallow embedding and verification

A shallow embedding of the lead lifecycle and bulk-mutation model of the
Spruce-ERP repository (`src/lib/data.ts`, `src/app/actions.ts`,
`src/components/leads/kanban-board.tsx`, the distribute-leads dialog and the
super-admin dashboard), together with proofs and refutations of the stated
behavioural properties.

Modelling conventions:
* ISO-8601 timestamp strings compared in the source via `new Date(s).getTime()`
  are embedded as `Int` values (the image of `getTime`); the order and
  calendar-day structure are all the source ever uses.
* JavaScript store state (the module-level `leads` array) is an explicit
  `Store` structure threaded through each operation.
* The lazy re-generation of 100 random leads that `getLeads()` performs on an
  empty collection is not modelled (it is driven by `Math.random()`); theorems
  about `addLead` that could be affected carry a `st.leads ≠ []` hypothesis.
* Form data (`FormData`) is embedded as records of `Option String`
  (`none` = the key is absent, i.e. `formData.get` returns `null`).
-/

namespace Spruce

/-- The six pipeline stages (`KanbanStage` in `src/lib/types.ts`). -/
inductive KanbanStage where
  | New
  | Contacted
  | Qualified
  | Application
  | Enrolled
  | Dropped
deriving DecidableEq

/-- The string name of a stage, as it appears in messages and form data. -/
def KanbanStage.str : KanbanStage → String
  | .New => "New"
  | .Contacted => "Contacted"
  | .Qualified => "Qualified"
  | .Application => "Application"
  | .Enrolled => "Enrolled"
  | .Dropped => "Dropped"

/-- Inverse of `KanbanStage.str`: how `z.enum(KANBAN_STAGES)` reads a string. -/
def KanbanStage.ofStr (s : String) : Option KanbanStage :=
  if s = "New" then some .New
  else if s = "Contacted" then some .Contacted
  else if s = "Qualified" then some .Qualified
  else if s = "Application" then some .Application
  else if s = "Enrolled" then some .Enrolled
  else if s = "Dropped" then some .Dropped
  else none

/-- Activity types (`Activity.type` in `src/lib/types.ts`). -/
inductive ActivityType where
  | Call
  | Email
  | SMS
  | WhatsApp
  | WalkIn
  | System
deriving DecidableEq

/-- An activity log entry (`Activity` in `src/lib/types.ts`);
`timestamp` is the `getTime` image of the ISO string. -/
structure Activity where
  id : String
  type : ActivityType
  timestamp : Int
  outcome : String
  notes : String
  userId : String
deriving DecidableEq

/-- Task types (`Task.type`). -/
inductive TaskType where
  | FollowUp
  | Meeting
  | Documentation
deriving DecidableEq

/-- Task statuses (`Task.status`). -/
inductive TaskStatus where
  | Pending
  | Completed
  | Overdue
deriving DecidableEq

/-- Task priorities (`Task.priority`). -/
inductive TaskPriority where
  | High
  | Medium
  | Low
deriving DecidableEq

/-- A task (`Task` in `src/lib/types.ts`); `dueDate` is the `getTime` image. -/
structure Task where
  id : String
  leadId : String
  type : TaskType
  dueDate : Int
  status : TaskStatus
  priority : TaskPriority
  notes : String
  assignedUserId : String
deriving DecidableEq

/-- A phone number entry (`LeadPhoneNumber`). -/
structure LeadPhoneNumber where
  title : String
  number : String
deriving DecidableEq

/-- A secondary contact person (`LeadContact`). -/
structure LeadContact where
  id : String
  name : String
  relation : String
  phone : Option String
  email : Option String
deriving DecidableEq

/-- An uploaded document (`Document`). -/
structure Document where
  id : String
  type : String
  uploadDate : Int
  url : String
  verified : Bool
deriving DecidableEq

/-- Academic status (`Lead.status`). -/
inductive AcademicStatus where
  | Passed
  | Pursuing
deriving DecidableEq

/-- Gender (`Lead.gender`). -/
inductive Gender where
  | Male
  | Female
  | Other
deriving DecidableEq

/-- The central entity (`Lead` in `src/lib/types.ts`).  `createdAt` is the
`getTime` image of the ISO creation timestamp; `dob` stays a raw string since
the core never interprets it. -/
structure Lead where
  id : String
  name : String
  avatarUrl : String
  email : String
  stage : KanbanStage
  source : String
  assignedUserId : String
  createdAt : Int
  phoneNumbers : List LeadPhoneNumber
  education : Option String
  college : Option String
  status : Option AcademicStatus
  courseInterest : Option String
  address : Option String
  city : Option String
  gender : Option Gender
  dob : Option String
  activities : List Activity
  tasks : List Task
  documents : List Document
  contacts : List LeadContact
deriving DecidableEq

/-- The in-memory store: the module-level `leads` array of `src/lib/data.ts`. -/
structure Store where
  leads : List Lead
deriving DecidableEq

/-! ## Identity generation

`addLead` computes `String(currentLeads.length + 1).padStart(3, '0')`.
`decChars n` is the list of decimal digit characters of `n` (the image of
JavaScript `String(n)` for a natural number) and `padChars3` the image of
`.padStart(3, '0')`. -/

/-- Decimal digit characters, fuel-based so that the kernel can evaluate it
(`fuel > n` always suffices since `n / 10 < n` for `n ≥ 10`). -/
def decCharsAux : Nat → Nat → List Char
  | 0, _ => []
  | fuel + 1, n =>
    if n < 10 then [Nat.digitChar n]
    else decCharsAux fuel (n / 10) ++ [Nat.digitChar (n % 10)]

/-- Decimal digit characters of `n`, most significant first
(the image of JavaScript `String(n)`). -/
def decChars (n : Nat) : List Char :=
  decCharsAux (n + 1) n

/-- The fuel argument of `decCharsAux` is irrelevant once it exceeds `n`. -/
theorem decCharsAux_fuel_irrel : ∀ (n f₁ f₂ : Nat), n < f₁ → n < f₂ →
    decCharsAux f₁ n = decCharsAux f₂ n := by
  intro n
  induction n using Nat.strong_induction_on with
  | _ n ih =>
    intro f₁ f₂ h₁ h₂
    match f₁, f₂ with
    | g₁ + 1, g₂ + 1 =>
      simp only [decCharsAux]
      by_cases hn : n < 10
      · simp [hn]
      · have hdiv : n / 10 < n := Nat.div_lt_self (by omega) (by omega)
        simp only [hn, if_false]
        rw [ih (n / 10) hdiv g₁ g₂ (by omega) (by omega)]

/-- The recursion equation of `decChars`. -/
theorem decChars_eq (n : Nat) :
    decChars n =
      if n < 10 then [Nat.digitChar n]
      else decChars (n / 10) ++ [Nat.digitChar (n % 10)] := by
  by_cases hn : n < 10
  · simp [decChars, decCharsAux, hn]
  · have hdiv : n / 10 < n := Nat.div_lt_self (by omega) (by omega)
    have h1 : decCharsAux (n + 1) n = decCharsAux n (n / 10) ++ [Nat.digitChar (n % 10)] := by
      simp [decCharsAux, hn]
    rw [decChars, h1, if_neg hn, decChars,
      decCharsAux_fuel_irrel (n / 10) n (n / 10 + 1) hdiv (by omega)]

/-- `padStart(3, '0')` on a character list. -/
def padChars3 (l : List Char) : List Char :=
  if 3 ≤ l.length then l else List.replicate (3 - l.length) '0' ++ l

/-- The id `addLead` assigns when the store holds `m - 1` leads:
`String(m).padStart(3, '0')`. -/
def newLeadId (m : Nat) : String :=
  String.mk (padChars3 (decChars m))

/-! ## Store primitives (`src/lib/data.ts`) -/

/-- The fields a caller supplies to `addLead` (the `Omit<Lead, ...>` input). -/
structure AddLeadData where
  name : String
  email : String
  source : String
  phoneNumbers : List LeadPhoneNumber
  education : Option String
  college : Option String
  status : Option AcademicStatus
  courseInterest : Option String
  address : Option String
  city : Option String
  gender : Option Gender
  dob : Option String
deriving DecidableEq

/-- `addLead` (`data.ts` lines 120-151): allocates
`String(length + 1).padStart(3,'0')` as the id, builds the synthetic
"Lead Created" System activity, and unshifts the new lead.  `now` is the
`getTime` image of `new Date()` at the call. -/
def addLead (st : Store) (lead : AddLeadData) (now : Int) : Store × Lead :=
  let newId := newLeadId (st.leads.length + 1)
  let avatarId := String.mk (decChars (st.leads.length + 1))
  let creationActivity : Activity :=
    { id := "ACT-" ++ newId ++ "-0"
      type := .System
      timestamp := now
      outcome := "Lead Created"
      notes := "Lead was created in the system via " ++ lead.source ++ "."
      userId := "user-1" }
  let newLead : Lead :=
    { id := newId
      name := lead.name
      email := lead.email
      phoneNumbers := lead.phoneNumbers
      education := lead.education
      college := lead.college
      status := lead.status
      courseInterest := lead.courseInterest
      address := lead.address
      city := lead.city
      gender := lead.gender
      dob := lead.dob
      source := lead.source
      stage := .New
      avatarUrl := avatarId
      createdAt := now
      assignedUserId := "user-1"
      activities := [creationActivity]
      tasks := []
      documents := []
      contacts := [] }
  ({ leads := newLead :: st.leads }, newLead)

/-- Lookup by id, the `getLeads().find(l => l.id === id)` idiom. -/
def findLead (st : Store) (id : String) : Option Lead :=
  st.leads.find? (fun l => l.id == id)

/-- A `Partial<Lead> & { id: string }` update: `none` means
the key is absent from the partial. -/
structure LeadUpdate where
  id : String
  name : Option String := none
  email : Option String := none
  assignedUserId : Option String := none
  stage : Option KanbanStage := none
  source : Option String := none
  phoneNumbers : Option (List LeadPhoneNumber) := none
  courseInterest : Option String := none
  education : Option String := none
  college : Option String := none
  status : Option AcademicStatus := none
deriving DecidableEq

/-- The spread of a possibly-absent key onto an already-optional field:
a present key replaces the stored option, an absent key leaves it alone. -/
def mergeOpt {α : Type} (upd cur : Option α) : Option α :=
  match upd with
  | some v => some v
  | none => cur

/-- The `{ ...originalLead, ...updatedLead }` shallow merge: keys present in
the partial replace the original's, all other fields are untouched. -/
def applyLeadUpdate (l : Lead) (u : LeadUpdate) : Lead :=
  { l with
    id := u.id
    name := u.name.getD l.name
    email := u.email.getD l.email
    assignedUserId := u.assignedUserId.getD l.assignedUserId
    stage := u.stage.getD l.stage
    source := u.source.getD l.source
    phoneNumbers := u.phoneNumbers.getD l.phoneNumbers
    courseInterest := mergeOpt u.courseInterest l.courseInterest
    education := mergeOpt u.education l.education
    college := mergeOpt u.college l.college
    status := mergeOpt u.status l.status }

/-- `updateLead` (`data.ts` lines 158-164): finds the first lead with the
partial's id, shallow-merges, and returns the updated lead — or returns
`null` (here `none`) without touching the store when the id matches nothing. -/
def updateLead (st : Store) (u : LeadUpdate) : Option Lead × Store :=
  match st.leads.findIdx? (fun l => l.id == u.id) with
  | none => (none, st)
  | some i =>
    -- the source mutates `leads[leadIndex]` in place; `i` is the first index
    -- whose id matches, so this is `leads.set i (merge (leads.get i) u)`
    match st.leads[i]? with
    | none => (none, st)
    | some orig =>
      let merged := applyLeadUpdate orig u
      (some merged, { leads := st.leads.set i merged })

/-- Distribution pairs (`{ leadId, assignedUserId }`). -/
structure DistPair where
  leadId : String
  assignedUserId : String
deriving DecidableEq

/-- The `updates` argument of `bulkUpdateLeads`. -/
structure BulkUpdates where
  stage : Option KanbanStage := none
  assignedUserId : Option String := none
  assignedUserIds : Option (List DistPair) := none
deriving DecidableEq

/-- Lookup in a JavaScript `Map` built by inserting the pairs in order:
a later entry for the same key overwrites an earlier one. -/
def jsMapGet (pairs : List (String × String)) (k : String) : Option String :=
  match pairs with
  | [] => none
  | (k₀, v₀) :: rest =>
    match jsMapGet rest k with
    | some w => some w
    | none => if k = k₀ then some v₀ else none

/-- `bulkUpdateLeads` (`data.ts` lines 173-200).  With a distribution list it
reassigns exactly the leads keyed in the list; otherwise it merges whichever
of stage / assignedUserId is present onto every lead whose id is selected
(and does nothing when neither is present). -/
def bulkUpdateLeads (st : Store) (leadIds : List String) (updates : BulkUpdates) :
    Store :=
  match updates.assignedUserIds with
  | some pairs =>
    let assignmentMap := pairs.map (fun d => (d.leadId, d.assignedUserId))
    { leads := st.leads.map (fun lead =>
        match jsMapGet assignmentMap lead.id with
        | some uid => { lead with assignedUserId := uid }
        | none => lead) }
  | none =>
    if updates.stage = none ∧ updates.assignedUserId = none then st
    else
      { leads := st.leads.map (fun lead =>
          if leadIds.contains lead.id then
            { lead with
              stage := updates.stage.getD lead.stage
              assignedUserId := updates.assignedUserId.getD lead.assignedUserId }
          else lead) }

/-- `bulkDeleteLeads` (`data.ts` lines 207-209):
`leads = leads.filter(lead => !leadIds.includes(lead.id))`. -/
def bulkDeleteLeads (st : Store) (leadIds : List String) : Store :=
  { leads := st.leads.filter (fun lead => !(leadIds.contains lead.id)) }

/-! ## Derived views: Kanban board (`src/components/leads/kanban-board.tsx`) -/

/-- `priorityOrder` (line 88): `{ High: 0, Medium: 1, Low: 2 }`. -/
def priorityOrder : TaskPriority → Int
  | .High => 0
  | .Medium => 1
  | .Low => 2

/-- `getNextFollowUp` (lines 83-85): the earliest-due pending Follow-up task
(stable sort by due date, then first element). -/
def getNextFollowUp (lead : Lead) : Option Task :=
  ((lead.tasks.filter (fun t => t.type == .FollowUp && t.status == .Pending)).mergeSort
    (fun a b => decide (a.dueDate ≤ b.dueDate))).head?

/-- `a.activities?.[0]?.timestamp || a.createdAt` viewed through `getTime`. -/
def lastActivityTime (l : Lead) : Int :=
  match l.activities.head? with
  | some a => a.timestamp
  | none => l.createdAt

/-- The comparator inside `sortLeadsByPriority` (lines 91-110), returning the
JavaScript comparator's value. -/
def leadCmp (a b : Lead) : Int :=
  match getNextFollowUp a, getNextFollowUp b with
  | some ta, some tb =>
    if priorityOrder ta.priority ≠ priorityOrder tb.priority then
      priorityOrder ta.priority - priorityOrder tb.priority
    else
      ta.dueDate - tb.dueDate
  | some _, none => -1
  | none, some _ => 1
  | none, none => lastActivityTime b - lastActivityTime a

/-- `a` may come no later than `b` under the comparator. -/
def leadLE (a b : Lead) : Bool :=
  decide (leadCmp a b ≤ 0)

/-- `sortLeadsByPriority` (lines 91-110): a stable sort of the column by the
comparator. -/
def sortLeadsByPriority (leads : List Lead) : List Lead :=
  leads.mergeSort leadLE

/-! ## Derived views: missed follow-up (`SuperAdminDashboard`, dashboard page
lines 495-510).  `isToday` from date-fns holds when the instant falls in the
current calendar day `[todayStart, todayStart + 86400000)`. -/

/-- Milliseconds per day. -/
def msPerDay : Int := 86400000

/-- date-fns `isToday(new Date(t))` with the current day starting at
`todayStart`. -/
def isToday (todayStart t : Int) : Bool :=
  decide (todayStart ≤ t) && decide (t < todayStart + msPerDay)

/-- The lead has a pending Follow-up task due on the current calendar day. -/
def hasTodaysFollowUp (todayStart : Int) (lead : Lead) : Bool :=
  lead.tasks.any (fun task =>
    task.type == .FollowUp && task.status == .Pending &&
      isToday todayStart task.dueDate)

/-- The lead has an activity timestamped on the current calendar day. -/
def hasBeenContactedToday (todayStart : Int) (lead : Lead) : Bool :=
  lead.activities.any (fun activity => isToday todayStart activity.timestamp)

/-- `allLeads.find(...)` in `SuperAdminDashboard`: the first lead with a
pending Follow-up due today and no activity logged today. -/
def missedFollowUpLead (todayStart : Int) (leads : List Lead) : Option Lead :=
  leads.find? (fun lead =>
    hasTodaysFollowUp todayStart lead && !hasBeenContactedToday todayStart lead)

/-! ## Round-robin distribution (`DistributeLeadsDialog.handleDistribute`) -/

/-- The distribution list built by `handleDistribute`:
`newLeads.map((lead, index) => ({ leadId: lead.id,
assignedUserId: selectedCounselors[index % selectedCounselors.length] }))`. -/
def distributionList (newLeads : List Lead) (selectedCounselors : List String) :
    List DistPair :=
  newLeads.mapIdx (fun index lead =>
    { leadId := lead.id
      assignedUserId :=
        selectedCounselors.getD (index % selectedCounselors.length) ("") })

/-! ## Validation layer and server actions (`src/app/actions.ts`)

Zod semantics embedded: a missing form key is `null` (`formData.get`), which
`z.string().optional()` rejects with an `invalid_type` issue (only `undefined`
passes `.optional()`); `.refine` clauses run only when the base object parse
produced no issue.  An issue is a `(field, message)` pair, the flattened
`fieldErrors` shape the actions return. -/

/-- A flattened field error: field name and message. -/
abbrev FieldIssue := String × String

/-- An abstraction of `z.string().email()`: a single `@` separating a
non-empty local part from a dotted, non-empty domain.  The claims never
depend on the exact boundary of the email format. -/
def emailOk (s : String) : Bool :=
  let cs := s.data
  let localPart := cs.takeWhile (fun c => c != '@')
  match cs.dropWhile (fun c => c != '@') with
  | '@' :: dom => !localPart.isEmpty && !dom.isEmpty && dom.contains '.' &&
      !dom.contains '@'
  | _ => false

/-- The phone pattern `^\+?[1-9]\d{9,14}$` (actions.ts line 114). -/
def phoneOk (s : String) : Bool :=
  let cs := match s.data with
    | '+' :: rest => rest
    | cs => cs
  match cs with
  | [] => false
  | c :: rest =>
    decide ('1' ≤ c) && decide (c ≤ '9') &&
      rest.all (fun d => decide ('0' ≤ d) && decide (d ≤ '9')) &&
      decide (9 ≤ rest.length) && decide (rest.length ≤ 14)

/-- Issues of `z.string().optional()` applied to a raw `formData.get` result:
`null` (absent key) is rejected, any string passes. -/
def optStringIssues (field : String) (v : Option String) : List FieldIssue :=
  match v with
  | none => [(field, "Expected string, received null")]
  | some _ => []

/-- `!value` on a string field: absent or empty. -/
def jsFalsy (v : Option String) : Bool :=
  match v with
  | none => true
  | some s => s.isEmpty

/-- `value || undefined`: an absent or empty string becomes `undefined`. -/
def jsOrUndefined (v : Option String) : Option String :=
  match v with
  | none => none
  | some s => if s.isEmpty then none else some s

/-- `AcademicStatus` as parsed by `z.enum(['Passed', 'Pursuing'])`. -/
def AcademicStatus.ofStr (s : String) : Option AcademicStatus :=
  if s = "Passed" then some .Passed
  else if s = "Pursuing" then some .Pursuing
  else none

/-- `Gender` as parsed by `z.enum(['Male', 'Female', 'Other'])`. -/
def Gender.ofStr (s : String) : Option Gender :=
  if s = "Male" then some .Male
  else if s = "Female" then some .Female
  else if s = "Other" then some .Other
  else none

/-- The raw key/value form data reaching `addLeadAction` (`none` = the key is
absent, so `formData.get` yields `null`; `phoneTitles`/`phoneNumbers` are the
repeated-key arrays from `formData.getAll`). -/
structure AddLeadFormInput where
  name : Option String := none
  email : Option String := none
  phoneTitles : List String := []
  phoneNumbers : List String := []
  source : Option String := none
  socialMediaSource : Option String := none
  otherSource : Option String := none
  referralSource : Option String := none
  education : Option String := none
  college : Option String := none
  status : Option String := none
  courseInterest : Option String := none
  address : Option String := none
  city : Option String := none
  gender : Option String := none
  dob : Option String := none
deriving DecidableEq

/-- The phone pairing in `addLeadAction` (lines 177-183): zip titles with
numbers and drop entries whose number is falsy. -/
def pairedPhones (titles numbers : List String) : List LeadPhoneNumber :=
  ((titles.zip numbers).filter (fun p => !p.2.isEmpty)).map
    (fun p => { title := p.1, number := p.2 })

/-- Issues raised by one phone entry of the schema. -/
def phoneEntryIssues (p : LeadPhoneNumber) : List FieldIssue :=
  (if p.title.isEmpty then [(("phoneNumbers" : String), ("Title is required" : String))] else []) ++
    (if phoneOk p.number then [] else
      [(("phoneNumbers" : String), ("Please enter a valid phone number." : String))])

/-- The base object parse of `addLeadFormSchema` (actions.ts lines 117-137):
all field-level issues, collected. -/
def addLeadBaseIssues (i : AddLeadFormInput) : List FieldIssue :=
  (match i.name with
   | none => [(("name" : String), ("Expected string, received null" : String))]
   | some s =>
     if s.length < 2 then
       [(("name" : String), ("Name must be at least 2 characters." : String))]
     else []) ++
  (match i.email with
   | none => [(("email" : String), ("Expected string, received null" : String))]
   | some s =>
     if emailOk s then [] else
       [(("email" : String), ("Please enter a valid email address." : String))]) ++
  ((pairedPhones i.phoneTitles i.phoneNumbers).flatMap phoneEntryIssues) ++
  (match i.source with
   | none => [(("source" : String), ("Expected string, received null" : String))]
   | some s =>
     if s.length < 1 then [(("source" : String), ("Source is required." : String))]
     else []) ++
  optStringIssues ("socialMediaSource") i.socialMediaSource ++
  optStringIssues ("otherSource") i.otherSource ++
  optStringIssues ("referralSource") i.referralSource ++
  optStringIssues ("education") i.education ++
  optStringIssues ("college") i.college ++
  (match i.status with
   | none => [(("status" : String), ("Expected string, received null" : String))]
   | some s =>
     match AcademicStatus.ofStr s with
     | some _ => []
     | none => [(("status" : String), ("Invalid enum value" : String))]) ++
  optStringIssues ("courseInterest") i.courseInterest ++
  optStringIssues ("address") i.address ++
  optStringIssues ("city") i.city ++
  (match i.gender with
   | none => [(("gender" : String), ("Expected string, received null" : String))]
   | some s =>
     match Gender.ofStr s with
     | some _ => []
     | none => [(("gender" : String), ("Invalid enum value" : String))]) ++
  optStringIssues ("dob") i.dob

/-- The three conditional `.refine` clauses (actions.ts lines 138-147),
run only when the base parse succeeded. -/
def addLeadRefineIssues (i : AddLeadFormInput) : List FieldIssue :=
  (if i.source == some ("Other") && jsFalsy i.otherSource then
    [(("otherSource" : String),
      ("Please specify the source if 'Other' is selected." : String))]
   else []) ++
  (if i.source == some ("Social Media") && jsFalsy i.socialMediaSource then
    [(("socialMediaSource" : String),
      ("Please specify the social media channel." : String))]
   else []) ++
  (if i.source == some ("Referral") && jsFalsy i.referralSource then
    [(("referralSource" : String),
      ("Please specify the referrer name." : String))]
   else [])

/-- `addLeadFormSchema.safeParse`: base issues if any, the refine issues
otherwise; the parse succeeds exactly when the result is empty. -/
def addLeadValidationIssues (i : AddLeadFormInput) : List FieldIssue :=
  if (addLeadBaseIssues i).isEmpty then addLeadRefineIssues i
  else addLeadBaseIssues i

/-- The action result (`AddLeadState`): a confirmation message or the
flattened field-error map. -/
structure AddLeadState where
  message : Option String := none
  errors : Option (List FieldIssue) := none
deriving DecidableEq

/-- `addLeadAction` (actions.ts lines 176-228): validate, splice a qualifying
source into a composite `source` string, then `addLead`.  `now` is the
creation instant. -/
def addLeadAction (st : Store) (i : AddLeadFormInput) (now : Int) :
    AddLeadState × Store :=
  let issues := addLeadValidationIssues i
  if issues.isEmpty then
    let source := i.source.getD ("")
    let finalSource :=
      if source = "Other" then i.otherSource.getD ("")
      else if source = "Social Media" then
        source ++ " - " ++ i.socialMediaSource.getD ("")
      else if source = "Referral" then
        source ++ " - " ++ i.referralSource.getD ("")
      else source
    let data : AddLeadData :=
      { name := i.name.getD ("")
        email := i.email.getD ("")
        source := finalSource
        phoneNumbers := pairedPhones i.phoneTitles i.phoneNumbers
        education := i.education
        college := i.college
        status := i.status.bind AcademicStatus.ofStr
        courseInterest := i.courseInterest
        address := i.address
        city := i.city
        gender := i.gender.bind Gender.ofStr
        dob := i.dob }
    let st' := (addLead st data now).1
    ({ message := some ("Lead \"" ++ i.name.getD ("") ++ "\" created successfully.") },
      st')
  else
    ({ errors := some issues }, st)

/-- The raw form data reaching `updateLeadAction`.  The four optional fields
go through `|| undefined` in the action, the required ones do not. -/
structure UpdateLeadFormInput where
  id : Option String := none
  name : Option String := none
  email : Option String := none
  assignedUserId : Option String := none
  phoneTitles : List String := []
  phoneNumbers : List String := []
  source : Option String := none
  courseInterest : Option String := none
  education : Option String := none
  college : Option String := none
  status : Option String := none
deriving DecidableEq

/-- The base parse of `updateLeadFormSchema` (actions.ts lines 231-247);
the schema has no refine clauses. -/
def updateLeadValidationIssues (i : UpdateLeadFormInput) : List FieldIssue :=
  (match i.id with
   | none => [(("id" : String), ("Expected string, received null" : String))]
   | some _ => []) ++
  (match i.name with
   | none => [(("name" : String), ("Expected string, received null" : String))]
   | some s =>
     if s.length < 2 then
       [(("name" : String), ("Name must be at least 2 characters." : String))]
     else []) ++
  (match i.email with
   | none => [(("email" : String), ("Expected string, received null" : String))]
   | some s =>
     if emailOk s then [] else
       [(("email" : String), ("Please enter a valid email address." : String))]) ++
  (match i.assignedUserId with
   | none => [(("assignedUserId" : String), ("Expected string, received null" : String))]
   | some _ => []) ++
  ((pairedPhones i.phoneTitles i.phoneNumbers).flatMap phoneEntryIssues) ++
  (match i.source with
   | none => [(("source" : String), ("Expected string, received null" : String))]
   | some s =>
     if s.length < 1 then [(("source" : String), ("Source is required." : String))]
     else []) ++
  (match jsOrUndefined i.status with
   | none => []
   | some s =>
     match AcademicStatus.ofStr s with
     | some _ => []
     | none => [(("status" : String), ("Invalid enum value" : String))])

/-- `updateLeadAction` (actions.ts lines 258-296): validate, call the store's
`updateLead`, and return the confirmation string.  The `null` result of a
failed store lookup is not inspected by the source, so the action returns the
success message either way.  (The source spreads the whole validated object,
whose optional keys may be present with value `undefined`; no settled claim
exercises a successful merge through this action, so the partial below keeps
only the present values.) -/
def updateLeadAction (st : Store) (i : UpdateLeadFormInput) :
    AddLeadState × Store :=
  let issues := updateLeadValidationIssues i
  if issues.isEmpty then
    let phones := pairedPhones i.phoneTitles i.phoneNumbers
    let u : LeadUpdate :=
      { id := i.id.getD ("")
        name := some (i.name.getD (""))
        email := some (i.email.getD (""))
        assignedUserId := some (i.assignedUserId.getD (""))
        source := some (i.source.getD (""))
        phoneNumbers := if phones.isEmpty then none else some phones
        courseInterest := jsOrUndefined i.courseInterest
        education := jsOrUndefined i.education
        college := jsOrUndefined i.college
        status := (jsOrUndefined i.status).bind AcademicStatus.ofStr }
    let st' := (updateLead st u).2
    ({ message := some ("Lead \"" ++ i.name.getD ("") ++ "\" updated successfully.") },
      st')
  else
    ({ errors := some issues }, st)

/-- The action result of the bulk operations (`BulkUpdateState`). -/
structure BulkUpdateState where
  message : Option String := none
  error : Option String := none
deriving DecidableEq

/-- The raw form data reaching `bulkUpdateLeadsAction`; `distributionList`
arrives as already-parsed JSON (`none` = the key is absent). -/
structure BulkUpdateFormInput where
  leadIds : List String := []
  stage : Option String := none
  assignedUserId : Option String := none
  distributionList : Option (List DistPair) := none
deriving DecidableEq

/-- The single-field branch of `bulkUpdateLeadsAction` (lines 471-493): build
`updates` from whichever of stage / assignee is present, apply it, and word
the message stage-first.  `users` is the current user collection as
`(id, name)` pairs, used only for the assignee wording. -/
def bulkUpdateSingle (st : Store) (users : List (String × String))
    (leadIds : List String) (vStage : Option KanbanStage)
    (vAssigned : Option String) : BulkUpdateState × Store :=
  let st' :=
    if vStage = none ∧ vAssigned = none then st
    else bulkUpdateLeads st leadIds { stage := vStage, assignedUserId := vAssigned }
  let message : Option String :=
    match vStage with
    | some s => some (Nat.repr leadIds.length ++ " lead(s) moved to " ++ s.str ++ ".")
    | none =>
      match vAssigned with
      | some uid =>
        let nm := ((users.find? (fun u => u.1 == uid)).map Prod.snd).getD ("N/A")
        some (Nat.repr leadIds.length ++ " lead(s) assigned to " ++ nm ++ ".")
      | none => none
  ({ message := some (message.getD ("No updates performed.")) }, st')

/-- `bulkUpdateLeadsAction` (actions.ts lines 434-497).  Validation turns the
empty-string results of `formData.get` into `undefined` and requires any
present stage to be a valid `KANBAN_STAGES` member; a non-empty distribution
list takes the distribution branch, otherwise the single-field branch runs. -/
def bulkUpdateLeadsAction (st : Store) (users : List (String × String))
    (i : BulkUpdateFormInput) : BulkUpdateState × Store :=
  let stageStr := jsOrUndefined i.stage
  let assignedStr := jsOrUndefined i.assignedUserId
  match stageStr with
  | some s =>
    match KanbanStage.ofStr s with
    | none => ({ error := some ("Invalid data for bulk update.") }, st)
    | some vs =>
      match i.distributionList with
      | some dl =>
        if 0 < dl.length then
          let st' := bulkUpdateLeads st (dl.map (·.leadId))
            { assignedUserIds := some dl }
          ({ message := some (Nat.repr dl.length ++
              " leads have been distributed successfully.") }, st')
        else bulkUpdateSingle st users i.leadIds (some vs) assignedStr
      | none => bulkUpdateSingle st users i.leadIds (some vs) assignedStr
  | none =>
    match i.distributionList with
    | some dl =>
      if 0 < dl.length then
        let st' := bulkUpdateLeads st (dl.map (·.leadId))
          { assignedUserIds := some dl }
        ({ message := some (Nat.repr dl.length ++
            " leads have been distributed successfully.") }, st')
      else bulkUpdateSingle st users i.leadIds none assignedStr
    | none => bulkUpdateSingle st users i.leadIds none assignedStr

/-! ## Concrete data used by witnesses and counterexamples -/

/-- A minimal well-formed lead with the given id. -/
def mkLead (i : String) : Lead :=
  { id := i
    name := "Lead"
    avatarUrl := i
    email := "lead@example.com"
    stage := .New
    source := "Website"
    assignedUserId := "user-1"
    createdAt := 0
    phoneNumbers := []
    education := none
    college := none
    status := none
    courseInterest := none
    address := none
    city := none
    gender := none
    dob := none
    activities := []
    tasks := []
    documents := []
    contacts := [] }

/-- A minimal valid `addLead` input. -/
def sampleAddData : AddLeadData :=
  { name := "N"
    email := "n@x.c"
    source := "Website"
    phoneNumbers := []
    education := none
    college := none
    status := none
    courseInterest := none
    address := none
    city := none
    gender := none
    dob := none }

/-- A store holding one lead, id `001`. -/
def sampleStore1 : Store :=
  { leads := [mkLead "001"] }

/-- A store holding two leads, ids `001` and `002`. -/
def sampleStore2 : Store :=
  { leads := [mkLead "001", mkLead "002"] }

/-- A store holding three leads, ids `001`, `002` and `003`. -/
def sampleStore3 : Store :=
  { leads := [mkLead "001", mkLead "002", mkLead "003"] }

/-! ## Shared helper lemmas -/

/-- Filtering out the leads whose id lies in `ids` does not change lookups of
any id outside `ids`. -/
theorem find?_filter_out_other_ids (leads : List Lead) (ids : List String)
    (x : String) (hx : ids.contains x = false) :
    (leads.filter (fun l => !(ids.contains l.id))).find? (fun l => l.id == x) =
      leads.find? (fun l => l.id == x) := by
  induction leads with
  | nil => rfl
  | cons a t ih =>
    cases hb : ids.contains a.id with
    | true =>
      have hne : (a.id == x) = false := by
        rw [beq_eq_false_iff_ne]
        intro hcontra
        rw [hcontra] at hb
        rw [hb] at hx
        exact Bool.true_eq_false.mp hx
      simp only [List.filter_cons, hb, Bool.not_true, if_false, List.find?_cons, hne]
      exact ih
    | false =>
      simp only [List.filter_cons, hb, Bool.not_false, if_true, List.find?_cons]
      cases hax : (a.id == x) with
      | true => rfl
      | false => exact ih

/-- A lead whose id lies in `ids` never survives `bulkDeleteLeads`. -/
theorem find?_filter_deleted_id (leads : List Lead) (ids : List String)
    (x : String) (hx : ids.contains x = true) :
    (leads.filter (fun l => !(ids.contains l.id))).find? (fun l => l.id == x) =
      none := by
  rw [List.find?_eq_none]
  intro l hl
  intro hbeq
  rcases List.mem_filter.mp hl with ⟨-, hkeep⟩
  rw [beq_iff_eq] at hbeq
  rw [hbeq, hx] at hkeep
  exact Bool.false_ne_true hkeep

/-! ## Decimal-id arithmetic

These lemmas establish that `String(n).padStart(3, '0')` is injective for
positive `n`, which is what makes the length-derived id fresh on stores whose
ids are exactly the numerals `1..count`. -/

/-- `decChars` never returns the empty list. -/
theorem decChars_ne_nil (n : Nat) : decChars n ≠ [] := by
  rw [decChars_eq]
  by_cases hn : n < 10
  · simp [hn]
  · simp [hn]

/-- Digit characters are distinct below 10. -/
theorem digitChar_inj_lt (m n : Nat) (hm : m < 10) (hn : n < 10)
    (h : Nat.digitChar m = Nat.digitChar n) : m = n := by
  interval_cases m <;> interval_cases n <;> revert h <;> decide

/-- The leading digit character of a positive numeral is not `'0'`. -/
theorem decChars_head_ne_zero : ∀ n : Nat, 1 ≤ n →
    ∀ c, (decChars n).head? = some c → c ≠ '0' := by
  intro n
  induction n using Nat.strong_induction_on with
  | _ n ih =>
    intro hn c hc
    rw [decChars_eq] at hc
    by_cases h10 : n < 10
    · rw [if_pos h10] at hc
      simp only [List.head?_cons, Option.some.injEq] at hc
      subst hc
      interval_cases n <;> decide
    · rw [if_neg h10, List.head?_append] at hc
      cases hh : (decChars (n / 10)).head? with
      | none =>
        exact absurd (List.head?_eq_none_iff.mp hh) (decChars_ne_nil _)
      | some c' =>
        rw [hh] at hc
        have hc2 : some c' = some c := hc
        have hc' : c' = c := by injection hc2
        subst hc'
        have hdiv : n / 10 < n := Nat.div_lt_self (by omega) (by omega)
        have hpos : 1 ≤ n / 10 := by
          have h1 : 10 ≤ n := Nat.le_of_not_lt h10
          omega
        exact ih (n / 10) hdiv hpos c' hh

/-- The decimal numeral is injective. -/
theorem decChars_injective : ∀ m n : Nat, decChars m = decChars n → m = n := by
  intro m
  induction m using Nat.strong_induction_on with
  | _ m ih =>
    intro n h
    rw [decChars_eq m, decChars_eq n] at h
    by_cases hm : m < 10 <;> by_cases hn : n < 10
    · rw [if_pos hm, if_pos hn] at h
      simp only [List.cons.injEq, and_true] at h
      exact digitChar_inj_lt m n hm hn h
    · rw [if_pos hm, if_neg hn] at h
      have hlen := congrArg List.length h
      simp only [List.length_cons, List.length_nil, List.length_append] at hlen
      have : decChars (n / 10) = [] := by
        apply List.length_eq_zero.mp
        omega
      exact absurd this (decChars_ne_nil _)
    · rw [if_neg hm, if_pos hn] at h
      have hlen := congrArg List.length h
      simp only [List.length_cons, List.length_nil, List.length_append] at hlen
      have : decChars (m / 10) = [] := by
        apply List.length_eq_zero.mp
        omega
      exact absurd this (decChars_ne_nil _)
    · rw [if_neg hm, if_neg hn] at h
      rcases List.append_inj' h (by simp) with ⟨h1, h2⟩
      have e1 : m / 10 = n / 10 :=
        ih (m / 10) (Nat.div_lt_self (by omega) (by omega)) (n / 10) h1
      have e2 : m % 10 = n % 10 := by
        apply digitChar_inj_lt _ _ (Nat.mod_lt _ (by omega)) (Nat.mod_lt _ (by omega))
        simpa using h2
      omega

/-- The head element of a non-trivial replicate. -/
theorem head?_replicate_succ (k : Nat) (c : Char) :
    (List.replicate (k + 1) c).head? = some c := by
  rw [List.replicate_succ]
  rfl

/-- Two distinctly-sized short numerals stay distinct after padding
(the shorter one gains a leading `'0'` at the longer one's head position). -/
theorem pad_append_ne_of_len_lt (a b : List Char)
    (hb0 : ∀ c, b.head? = some c → c ≠ '0')
    (hlab : a.length < b.length) (hlb : b.length < 3) :
    List.replicate (3 - a.length) '0' ++ a ≠
      List.replicate (3 - b.length) '0' ++ b := by
  intro h
  match b, hlab with
  | c :: b', hlab =>
    have hc0 : c ≠ '0' := hb0 c rfl
    have hlab' : a.length < b'.length + 1 := by simpa using hlab
    have hlb' : b'.length + 1 < 3 := by simpa using hlb
    have hk1 : 3 - (c :: b').length <
        (List.replicate (3 - a.length) '0' ++ a).length := by
      simp only [List.length_append, List.length_replicate, List.length_cons]
      omega
    have hk2 : 3 - (c :: b').length < 3 - a.length := by
      simp only [List.length_cons]
      omega
    have e1 : (List.replicate (3 - a.length) '0' ++ a)[3 - (c :: b').length] = '0' := by
      rw [List.getElem_append_left (by simpa using hk2)]
      exact List.getElem_replicate _ _
    have e2 : (List.replicate (3 - (c :: b').length) '0' ++ (c :: b'))[3 - (c :: b').length]? =
        some c := by
      rw [List.getElem?_append_right (by simp)]
      simp
    have e3 := List.getElem?_eq_getElem hk1
    rw [← h] at e2
    rw [e3, e1] at e2
    exact hc0 (Option.some.injEq c '0' ▸ e2.symm)

/-- `padStart(3,'0')` is injective on non-empty numerals with non-zero head. -/
theorem padChars3_inj (a b : List Char)
    (ha : a ≠ []) (hb : b ≠ [])
    (ha0 : ∀ c, a.head? = some c → c ≠ '0')
    (hb0 : ∀ c, b.head? = some c → c ≠ '0')
    (h : padChars3 a = padChars3 b) : a = b := by
  rw [padChars3, padChars3] at h
  by_cases h3a : 3 ≤ a.length <;> by_cases h3b : 3 ≤ b.length
  · rwa [if_pos h3a, if_pos h3b] at h
  · rw [if_pos h3a, if_neg h3b] at h
    exfalso
    have hbl : 1 ≤ b.length := List.length_pos.mpr hb
    have hlen := congrArg List.length h
    simp only [List.length_append, List.length_replicate] at hlen
    have h3 : a.length = 3 := by omega
    match a, h3 with
    | c :: a', h3 =>
      have hc0 : c ≠ '0' := ha0 c rfl
      apply hc0
      have hrep : 1 ≤ 3 - b.length := by omega
      have hhd := congrArg List.head? h
      rw [List.head?_cons, List.head?_append] at hhd
      match hrk : 3 - b.length, hrep with
      | k + 1, _ =>
        rw [hrk, head?_replicate_succ k '0'] at hhd
        have hhd2 : some c = some '0' := hhd
        injection hhd2
  · rw [if_neg h3a, if_pos h3b] at h
    exfalso
    have hal : 1 ≤ a.length := List.length_pos.mpr ha
    have hlen := congrArg List.length h
    simp only [List.length_append, List.length_replicate] at hlen
    have h3 : b.length = 3 := by omega
    match b, h3 with
    | c :: b', h3 =>
      have hc0 : c ≠ '0' := hb0 c rfl
      apply hc0
      have hrep : 1 ≤ 3 - a.length := by omega
      have hhd := congrArg List.head? h
      rw [List.head?_cons, List.head?_append] at hhd
      match hrk : 3 - a.length, hrep with
      | k + 1, _ =>
        rw [hrk, head?_replicate_succ k '0'] at hhd
        have hhd2 : some c = some '0' := hhd.symm
        injection hhd2
  · rw [if_neg h3a, if_neg h3b] at h
    have hlen : a.length = b.length := by
      rcases Nat.lt_trichotomy a.length b.length with hlt | heq | hgt
      · exact absurd h (pad_append_ne_of_len_lt a b hb0 hlt (by omega))
      · exact heq
      · exact absurd h.symm (pad_append_ne_of_len_lt b a ha0 hgt (by omega))
    rcases List.append_inj h (by simp [hlen]) with ⟨-, h2⟩
    exact h2

/-- `String(n).padStart(3, '0')` is injective for positive `n`. -/
theorem newLeadId_inj (m n : Nat) (hm : 1 ≤ m) (hn : 1 ≤ n)
    (h : newLeadId m = newLeadId n) : m = n := by
  rw [newLeadId, newLeadId] at h
  injection h with h
  apply decChars_injective
  exact padChars3_inj _ _ (decChars_ne_nil m) (decChars_ne_nil n)
    (decChars_head_ne_zero m hm) (decChars_head_ne_zero n hn) h

/-! ## Claim C1 -/

/-- **C1** (refuted; the code contradicts the spec's "id is unique and never
reused" invariant).  `addLead` derives the id from the current array length,
so ids shrink back after a deletion: starting from the store `[001, 002]`,
deleting `001` and then adding a lead issues the id `002` again — the id of a
previously issued (and still present) lead.  This theorem evaluates the
embedded code on that failing input. -/
theorem addLead_reuses_id_after_delete :
    (addLead (bulkDeleteLeads sampleStore2 ["001"]) sampleAddData 5).2.id = "002" ∧
      "002" ∈ sampleStore2.leads.map (·.id) ∧
      (findLead (addLead (bulkDeleteLeads sampleStore2 ["001"]) sampleAddData 5).1
        "002").isSome = true := by
  decide

/-! ## Claim C3 -/

/-- The store state after the distribute dialog submits its round-robin list
through `bulkUpdateLeadsAction`'s distribution branch. -/
def distributeNewLeads (st : Store) (newLeads : List Lead) (cs : List String) :
    Store :=
  bulkUpdateLeads st ((distributionList newLeads cs).map (·.leadId))
    { assignedUserIds := some (distributionList newLeads cs) }

/-- How many of the distributed leads (those whose id is in `ids`) counselor
`c` holds in the store. -/
def receivedCount (st : Store) (ids : List String) (c : String) : Nat :=
  st.leads.countP (fun l => ids.contains l.id && l.assignedUserId == c)

/-- A key absent from the pair list resolves to nothing. -/
theorem jsMapGet_eq_none_of_not_mem : ∀ (pairs : List (String × String)) (k : String),
    k ∉ pairs.map Prod.fst → jsMapGet pairs k = none := by
  intro pairs
  induction pairs with
  | nil => intro k _; rfl
  | cons p rest ih =>
    obtain ⟨k₀, v₀⟩ := p
    intro k hk
    simp only [List.map_cons, List.mem_cons, not_or] at hk
    rw [jsMapGet, ih k hk.2, if_neg hk.1]

/-- A key present in the pair list resolves to something. -/
theorem jsMapGet_isSome_of_mem : ∀ (pairs : List (String × String)) (k : String),
    k ∈ pairs.map Prod.fst → (jsMapGet pairs k).isSome = true := by
  intro pairs
  induction pairs with
  | nil => intro k hk; simp at hk
  | cons p rest ih =>
    obtain ⟨k₀, v₀⟩ := p
    intro k hk
    rw [jsMapGet]
    cases hr : jsMapGet rest k with
    | some w => rfl
    | none =>
      simp only [List.map_cons, List.mem_cons] at hk
      rcases hk with hk | hk
      · rw [if_pos hk]
        rfl
      · have h2 := ih k hk
        rw [hr] at h2
        exact absurd h2 (by simp)

/-- Looking up the head key when it does not recur later. -/
theorem jsMapGet_cons_head (k v : String) (rest : List (String × String))
    (hk : k ∉ rest.map Prod.fst) : jsMapGet ((k, v) :: rest) k = some v := by
  rw [jsMapGet, jsMapGet_eq_none_of_not_mem rest k hk, if_pos rfl]

/-- Looking up a key different from the head key skips the head. -/
theorem jsMapGet_cons_ne (x k v : String) (rest : List (String × String))
    (hx : x ≠ k) : jsMapGet ((k, v) :: rest) x = jsMapGet rest x := by
  rw [jsMapGet]
  cases hr : jsMapGet rest x with
  | some w => rfl
  | none => rw [if_neg hx]

/-- Mapping over `mapIdx` composes into the index function. -/
theorem map_mapIdx {α β γ : Type} : ∀ (l : List α) (f : Nat → α → β) (g : β → γ),
    (l.mapIdx f).map g = l.mapIdx (fun i a => g (f i a)) := by
  intro l
  induction l with
  | nil => intro f g; rfl
  | cons a t ih =>
    intro f g
    simp only [List.mapIdx_cons, List.map_cons]
    rw [ih]

/-- The keys of an id-keyed `mapIdx` pair list are the ids. -/
theorem mapIdx_pair_fst : ∀ (ls : List Lead) (f : Nat → String),
    (ls.mapIdx (fun i l => (l.id, f i))).map Prod.fst = ls.map (·.id) := by
  intro ls
  induction ls with
  | nil => intro f; rfl
  | cons a t ih =>
    intro f
    simp only [List.mapIdx_cons, List.map_cons]
    rw [ih]

/-- Counting over the (distinct) keys of an id-keyed assignment map the keys
whose value is `c` equals counting `c` among the assigned values. -/
theorem countP_keys_jsMapGet (c : String) : ∀ (ls : List Lead) (f : Nat → String),
    (ls.map (·.id)).Nodup →
    (ls.map (·.id)).countP
        (fun x => (jsMapGet (ls.mapIdx (fun i l => (l.id, f i))) x).getD ("") == c) =
      ((List.range ls.length).map f).countP (fun y => y == c) := by
  intro ls
  induction ls with
  | nil => intro f _; rfl
  | cons a t ih =>
    intro f hnd
    simp only [List.map_cons, List.nodup_cons] at hnd
    obtain ⟨hnd1, hnd2⟩ := hnd
    simp only [List.map_cons, List.mapIdx_cons, List.length_cons,
      List.range_succ_eq_map, List.map_map, List.countP_cons]
    have hhead : jsMapGet ((a.id, f 0) :: t.mapIdx (fun i l => (l.id, f (i + 1)))) a.id =
        some (f 0) := by
      apply jsMapGet_cons_head
      rw [mapIdx_pair_fst]
      exact hnd1
    have htail : (t.map (·.id)).countP
        (fun x => (jsMapGet ((a.id, f 0) :: t.mapIdx (fun i l => (l.id, f (i + 1)))) x).getD ("") == c) =
        (t.map (·.id)).countP
          (fun x => (jsMapGet (t.mapIdx (fun i l => (l.id, f (i + 1)))) x).getD ("") == c) := by
      apply List.countP_congr
      intro x hx
      have hxa : x ≠ a.id := by
        intro hcontra
        subst hcontra
        exact hnd1 hx
      rw [jsMapGet_cons_ne x a.id (f 0) _ hxa]
    rw [htail, ih (fun i => f (i + 1)) hnd2, hhead]
    have hfs : (List.range t.length).map (f ∘ Nat.succ) =
        (List.range t.length).map (fun i => f (i + 1)) := rfl
    rw [hfs]
    simp only [Option.getD_some]

/-- How often each residue class occurs below `n`. -/
theorem countP_range_mod (k j : Nat) (hk : 0 < k) (hj : j < k) :
    ∀ n : Nat, (List.range n).countP (fun i => i % k == j) =
      n / k + if j < n % k then 1 else 0 := by
  intro n
  induction n with
  | zero => simp
  | succ n ih =>
    rw [List.range_succ, List.countP_append, ih]
    simp only [List.countP_cons, List.countP_nil, beq_iff_eq]
    have hmod : n % k < k := Nat.mod_lt _ hk
    have hdm := Nat.div_add_mod n k
    by_cases hr : n % k + 1 = k
    · have he : n + 1 = k * (n / k + 1) := by
        rw [Nat.mul_add, Nat.mul_one]
        omega
      have h1 : (n + 1) % k = 0 := by
        rw [he]
        exact Nat.mul_mod_right _ _
      have h2 : (n + 1) / k = n / k + 1 := by
        rw [he]
        exact Nat.mul_div_cancel_left _ hk
      rw [h1, h2]
      split_ifs <;> omega
    · have hlt : n % k + 1 < k := by omega
      have he : n + 1 = (n % k + 1) + k * (n / k) := by
        omega
      have h1 : (n + 1) % k = n % k + 1 := by
        rw [he, Nat.add_mul_mod_self_left]
        exact Nat.mod_eq_of_lt hlt
      have h2 : (n + 1) / k = n / k := by
        rw [he, Nat.add_mul_div_left _ _ hk, Nat.div_eq_of_lt hlt]
        omega
      rw [h1, h2]
      split_ifs <;> omega

/-- Summing `q` plus an extra unit for the first `m` positions. -/
theorem sum_range_const_add_ite (q m : Nat) : ∀ K : Nat,
    ((List.range K).map (fun j => q + if j < m then 1 else 0)).sum =
      K * q + min K m := by
  intro K
  induction K with
  | zero => simp
  | succ K ih =>
    rw [List.range_succ, List.map_append, List.sum_append, ih]
    simp only [List.map_cons, List.map_nil, List.sum_cons, List.sum_nil]
    by_cases h : K < m
    · have h1 : min K m = K := Nat.min_eq_left (Nat.le_of_lt h)
      have h2 : min (K + 1) m = K + 1 := Nat.min_eq_left h
      rw [if_pos h, h1, h2]
      ring
    · have h1 : min K m = m := Nat.min_eq_right (Nat.le_of_not_lt h)
      have h2 : min (K + 1) m = m := Nat.min_eq_right (by omega)
      rw [if_neg h, h1, h2]
      ring

/-- Counting over a distinct superset restricted to a distinct selection
equals counting over the selection. -/
theorem countP_contains_eq (ids sel : List String) (q : String → Bool)
    (hids : ids.Nodup) (hsel : sel.Nodup) (hsub : ∀ x ∈ sel, x ∈ ids) :
    ids.countP (fun x => sel.contains x && q x) = sel.countP q := by
  have h1 : ids.countP (fun x => sel.contains x && q x) =
      (ids.filter (fun x => sel.contains x)).countP q := by
    rw [List.countP_filter]
    apply List.countP_congr
    intro x _
    constructor
    · intro h
      rcases Bool.and_eq_true _ _ ▸ h with ⟨ha, hb⟩
      rw [hb, ha]
      rfl
    · intro h
      rcases Bool.and_eq_true _ _ ▸ h with ⟨ha, hb⟩
      rw [hb, ha]
      rfl
  have hperm : (ids.filter (fun x => sel.contains x)).Perm sel := by
    rw [List.perm_ext_iff_of_nodup (hids.filter _) hsel]
    intro x
    rw [List.mem_filter]
    constructor
    · rintro ⟨-, hx⟩
      simpa using hx
    · intro hx
      exact ⟨hsub x hx, by simpa using hx⟩
  rw [h1, hperm.countP_eq]

/-- After applying the distribution, the per-counselor count of distributed
leads equals the count of that counselor among the round-robin assignment
sequence. -/
theorem receivedCount_distribute (st : Store) (newLeads : List Lead)
    (cs : List String) (c : String)
    (hnl : (newLeads.map (·.id)).Nodup)
    (hsub : ∀ x ∈ newLeads.map (·.id), x ∈ st.leads.map (·.id))
    (hst : (st.leads.map (·.id)).Nodup) :
    receivedCount (distributeNewLeads st newLeads cs) (newLeads.map (·.id)) c =
      ((List.range newLeads.length).map
          (fun i => cs.getD (i % cs.length) (""))).countP (fun y => y == c) := by
  have hpe : (distributionList newLeads cs).map (fun d => (d.leadId, d.assignedUserId)) =
      newLeads.mapIdx (fun i l => (l.id, cs.getD (i % cs.length) (""))) := by
    rw [distributionList, map_mapIdx]
  have hstore : (distributeNewLeads st newLeads cs).leads =
      st.leads.map (fun lead =>
        match jsMapGet (newLeads.mapIdx (fun i l => (l.id, cs.getD (i % cs.length) (""))))
            lead.id with
        | some uid => { lead with assignedUserId := uid }
        | none => lead) := by
    rw [distributeNewLeads, bulkUpdateLeads]
    simp only [hpe]
  rw [receivedCount, hstore, List.countP_map]
  have hkeys : (newLeads.mapIdx (fun i l => (l.id, cs.getD (i % cs.length) ("")))).map
      Prod.fst = newLeads.map (·.id) := mapIdx_pair_fst _ _
  have hcongr : st.leads.countP
      ((fun l => (newLeads.map (·.id)).contains l.id && (l.assignedUserId == c)) ∘
        (fun lead =>
          match jsMapGet (newLeads.mapIdx (fun i l => (l.id, cs.getD (i % cs.length) (""))))
              lead.id with
          | some uid => { lead with assignedUserId := uid }
          | none => lead)) =
      st.leads.countP ((fun x => (newLeads.map (·.id)).contains x &&
        ((jsMapGet (newLeads.mapIdx (fun i l => (l.id, cs.getD (i % cs.length) (""))))
          x).getD ("") == c)) ∘ (·.id)) := by
    apply List.countP_congr
    intro l _
    simp only [Function.comp]
    cases hm : jsMapGet (newLeads.mapIdx (fun i l => (l.id, cs.getD (i % cs.length) (""))))
        l.id with
    | some uid =>
      simp [hm]
    | none =>
      have hcontains : (newLeads.map (·.id)).contains l.id = false := by
        cases hcont : (newLeads.map (·.id)).contains l.id with
        | false => rfl
        | true =>
          have hmem : l.id ∈ (newLeads.mapIdx
              (fun i l => (l.id, cs.getD (i % cs.length) ("")))).map Prod.fst := by
            rw [hkeys]
            simpa using hcont
          have := jsMapGet_isSome_of_mem _ _ hmem
          rw [hm] at this
          exact absurd this (by simp)
      simp only [hm, hcontains, Bool.false_and]
  rw [hcongr, ← List.countP_map]
  rw [countP_contains_eq _ _ _ hst hnl hsub]
  exact countP_keys_jsMapGet c newLeads (fun i => cs.getD (i % cs.length) ("")) hnl

/-- **C3** (confirmed).  Assigning `leads[i]` to `counselors[i mod k]` and
applying the distribution to the store yields: counselor `j` receives
`n / k` plus one extra lead exactly when `j < n mod k` (so every counselor
receives `floor(n/k)` or `floor(n/k)+1`, and the counselors with the larger
count are exactly the first `n mod k` in selection order), and the counts
over all selected counselors sum to `n`.  The assignment is a pure function
of the two input orderings, hence deterministic. -/
theorem distribution_round_robin (st : Store) (newLeads : List Lead)
    (cs : List String) (hk : cs ≠ []) (hcs : cs.Nodup)
    (hnl : (newLeads.map (·.id)).Nodup)
    (hsub : ∀ x ∈ newLeads.map (·.id), x ∈ st.leads.map (·.id))
    (hst : (st.leads.map (·.id)).Nodup) :
    (∀ j, ∀ hj : j < cs.length,
        receivedCount (distributeNewLeads st newLeads cs) (newLeads.map (·.id))
            (cs.get ⟨j, hj⟩) =
          newLeads.length / cs.length +
            if j < newLeads.length % cs.length then 1 else 0) ∧
      (∀ j, ∀ hj : j < cs.length,
        receivedCount (distributeNewLeads st newLeads cs) (newLeads.map (·.id))
            (cs.get ⟨j, hj⟩) = newLeads.length / cs.length ∨
        receivedCount (distributeNewLeads st newLeads cs) (newLeads.map (·.id))
            (cs.get ⟨j, hj⟩) = newLeads.length / cs.length + 1) ∧
      (∀ j, ∀ hj : j < cs.length,
        (receivedCount (distributeNewLeads st newLeads cs) (newLeads.map (·.id))
            (cs.get ⟨j, hj⟩) = newLeads.length / cs.length + 1 ↔
          j < newLeads.length % cs.length)) ∧
      ((List.range cs.length).map (fun j =>
          receivedCount (distributeNewLeads st newLeads cs) (newLeads.map (·.id))
            (cs.getD j ("")))).sum = newLeads.length := by
  have hkpos : 0 < cs.length := List.length_pos.mpr hk
  have hmain : ∀ j, ∀ hj : j < cs.length,
      receivedCount (distributeNewLeads st newLeads cs) (newLeads.map (·.id))
          (cs.get ⟨j, hj⟩) =
        newLeads.length / cs.length +
          if j < newLeads.length % cs.length then 1 else 0 := by
    intro j hj
    rw [receivedCount_distribute st newLeads cs _ hnl hsub hst, List.countP_map]
    have hconv : (List.range newLeads.length).countP
        ((fun y => y == cs.get ⟨j, hj⟩) ∘ (fun i => cs.getD (i % cs.length) (""))) =
        (List.range newLeads.length).countP (fun i => i % cs.length == j) := by
      apply List.countP_congr
      intro i _
      simp only [Function.comp]
      have hik : i % cs.length < cs.length := Nat.mod_lt _ hkpos
      rw [List.getD_eq_getElem _ _ hik, List.get_eq_getElem]
      constructor
      · intro h
        have h2 := beq_iff_eq.mp h
        rw [hcs.getElem_inj_iff] at h2
        exact beq_iff_eq.mpr h2
      · intro h
        have h2 := beq_iff_eq.mp h
        apply beq_iff_eq.mpr
        rw [hcs.getElem_inj_iff]
        exact h2
    rw [hconv]
    exact countP_range_mod cs.length j hkpos hj newLeads.length
  refine ⟨hmain, ?_, ?_, ?_⟩
  · intro j hj
    rw [hmain j hj]
    by_cases h : j < newLeads.length % cs.length
    · right
      rw [if_pos h]
    · left
      rw [if_neg h]
      omega
  · intro j hj
    rw [hmain j hj]
    by_cases h : j < newLeads.length % cs.length
    · rw [if_pos h]
      simp [h]
    · rw [if_neg h]
      constructor
      · intro hcontra
        omega
      · intro hcontra
        exact absurd hcontra h
  · have hmap : (List.range cs.length).map (fun j =>
        receivedCount (distributeNewLeads st newLeads cs) (newLeads.map (·.id))
          (cs.getD j (""))) =
        (List.range cs.length).map (fun j =>
          newLeads.length / cs.length +
            if j < newLeads.length % cs.length then 1 else 0) := by
      apply List.map_congr_left
      intro j hjmem
      have hj : j < cs.length := List.mem_range.mp hjmem
      have h0 := hmain j hj
      rw [List.get_eq_getElem] at h0
      rw [List.getD_eq_getElem _ _ hj]
      exact h0
    rw [hmap, sum_range_const_add_ite]
    have hmodlt : newLeads.length % cs.length < cs.length :=
      Nat.mod_lt _ hkpos
    have hmin : min cs.length (newLeads.length % cs.length) =
        newLeads.length % cs.length := Nat.min_eq_right (Nat.le_of_lt hmodlt)
    rw [hmin]
    have := Nat.div_add_mod newLeads.length cs.length
    omega

/-- Closed instance of the round-robin distribution on three leads and two
counselors: the first counselor receives two leads, and the counts sum to
three. -/
theorem distribution_round_robin_witness :
    receivedCount (distributeNewLeads sampleStore3 sampleStore3.leads
        ["user-5", "user-6"]) (sampleStore3.leads.map (·.id)) "user-5" = 2 ∧
      ((List.range 2).map (fun j =>
          receivedCount (distributeNewLeads sampleStore3 sampleStore3.leads
            ["user-5", "user-6"]) (sampleStore3.leads.map (·.id))
            ((["user-5", "user-6"] : List String).getD j ("")))).sum = 3 := by
  have h := distribution_round_robin sampleStore3 sampleStore3.leads
    ["user-5", "user-6"] (by decide) (by decide) (by decide) (by decide) (by decide)
  constructor
  · exact (h.1 0 (by decide)).trans (by decide)
  · exact h.2.2.2.trans (by decide)

/-! ## Claim C4 -/

/-- **C4** refutation of the id-freshness conjunct.  After a deletion the
length-derived id collides: adding to the two-lead store with `001` deleted
issues the id `002`, the id of a lead that the store previously issued and
still holds.  (All other conjuncts of the creation invariant hold, see the
amended theorem.) -/
theorem addLead_creation_invariant_counterexample :
    (addLead (bulkDeleteLeads sampleStore2 ["001"]) sampleAddData 5).2.id = "002" ∧
      "002" ∈ (bulkDeleteLeads sampleStore2 ["001"]).leads.map (·.id) := by
  decide

/-- **C4** (corrected).  For every create-lead input the returned Lead has
stage `New`, exactly one activity of type `System` with outcome
"Lead Created", empty task and document lists, and the default owner
`user-1`; and whenever the (non-empty) store's ids all lie among the
zero-padded numerals `1..count` — as holds for any store built without
deletions — the assigned id differs from the id of every lead in the store.
After deletions the freshness clause can fail (see the counterexample). -/
theorem addLead_creation_invariant (st : Store) (input : AddLeadData) (now : Int)
    (_hne : st.leads ≠ [])
    (hids : ∀ l ∈ st.leads, ∃ m, 1 ≤ m ∧ m ≤ st.leads.length ∧ l.id = newLeadId m) :
    (addLead st input now).2.stage = .New ∧
      (∃ act, (addLead st input now).2.activities = [act] ∧
        act.type = .System ∧ act.outcome = "Lead Created") ∧
      (addLead st input now).2.tasks = [] ∧
      (addLead st input now).2.documents = [] ∧
      (addLead st input now).2.assignedUserId = "user-1" ∧
      ∀ l ∈ st.leads, (addLead st input now).2.id ≠ l.id := by
  refine ⟨rfl, ⟨_, rfl, rfl, rfl⟩, rfl, rfl, rfl, ?_⟩
  intro l hl hcontra
  rcases hids l hl with ⟨m, hm1, hm2, hid⟩
  have heq : newLeadId (st.leads.length + 1) = newLeadId m := by
    rw [← hid]
    exact hcontra
  have := newLeadId_inj (st.leads.length + 1) m (by omega) hm1 heq
  omega

/-- Closed instance of the amended creation invariant on the one-lead store. -/
theorem addLead_creation_invariant_witness :
    (addLead sampleStore1 sampleAddData 5).2.stage = KanbanStage.New ∧
      ∀ l ∈ sampleStore1.leads, (addLead sampleStore1 sampleAddData 5).2.id ≠ l.id := by
  have h := addLead_creation_invariant sampleStore1 sampleAddData 5 (by decide)
    (by
      intro l hl
      have hl2 : l = mkLead "001" := by
        simpa [sampleStore1] using hl
      subst hl2
      exact ⟨1, by decide, by decide, by decide⟩)
  exact ⟨h.1, h.2.2.2.2.2⟩

/-! ## Claim C6 -/

/-- A create-lead form input that passes the base schema with every optional
key present (real form submissions must carry the optional keys, since an
absent key reaches the schema as `null`, which `z.string().optional()`
rejects). -/
def cAddInput : AddLeadFormInput :=
  { name := some ("Jo")
    email := some ("jo@x.c")
    source := some ("Other")
    socialMediaSource := some ("")
    otherSource := some ("Refer")
    referralSource := some ("")
    education := some ("")
    college := some ("")
    status := some ("Passed")
    courseInterest := some ("")
    address := some ("")
    city := some ("")
    gender := some ("Male")
    dob := some ("") }

/-- **C6** (confirmed).  With source `"Other"`: an absent specify-field
always produces a validation error on field `otherSource` with no store
write, and — holding every other (well-formed) field constant — a non-empty
specify-field makes the operation succeed with the stored lead's `source`
equal to the specify-field's value, not the literal `"Other"`. -/
theorem addLeadAction_conditional_source (st : Store) (i : AddLeadFormInput)
    (now : Int) (v : String) (hsrc : i.source = some ("Other")) (hv : v ≠ "")
    (hbase : (addLeadBaseIssues { i with otherSource := some v }).isEmpty = true) :
    ((∃ issues, (addLeadAction st { i with otherSource := none } now).1.errors =
          some issues ∧ (("otherSource" : String), ("Expected string, received null" : String)) ∈ issues) ∧
      (addLeadAction st { i with otherSource := none } now).1.message = none ∧
      (addLeadAction st { i with otherSource := none } now).2 = st) ∧
      ((addLeadAction st { i with otherSource := some v } now).1.errors = none ∧
        (addLeadAction st { i with otherSource := some v } now).1.message =
          some ("Lead \"" ++ i.name.getD ("") ++ "\" created successfully.") ∧
        ∃ newLead, (addLeadAction st { i with otherSource := some v } now).2.leads =
            newLead :: st.leads ∧ newLead.source = v) := by
  have hve : v.isEmpty = false := by
    rw [← Bool.not_eq_true, String.isEmpty_iff]
    exact hv
  have hbase1 : addLeadBaseIssues { i with otherSource := some v } = [] :=
    List.isEmpty_iff.mp hbase
  have h0 := hbase1
  rw [addLeadBaseIssues] at h0
  simp only [optStringIssues, List.append_eq_nil, and_assoc, and_true, true_and] at h0
  obtain ⟨hA1, hA2, hP, hS, hB1, hB2, hB3, hB4, hB5, hB6, hB7, hB8, hB9, hB10⟩ := h0
  have hbase0 : addLeadBaseIssues { i with otherSource := none } =
      [(("otherSource" : String), ("Expected string, received null" : String))] := by
    rw [addLeadBaseIssues]
    simp only [optStringIssues]
    rw [hA1, hA2, hP, hS, hB1, hB2, hB3, hB4, hB5, hB6, hB7, hB8, hB9, hB10]
    rfl
  have hrefine : addLeadRefineIssues { i with otherSource := some v } = [] := by
    rw [addLeadRefineIssues]
    simp only [hsrc, jsFalsy, hve]
    rfl
  have hval1 : addLeadValidationIssues { i with otherSource := some v } = [] := by
    rw [addLeadValidationIssues, hbase1]
    simpa using hrefine
  have hval0issues : addLeadValidationIssues { i with otherSource := none } =
      [(("otherSource" : String), ("Expected string, received null" : String))] := by
    rw [addLeadValidationIssues, hbase0]
    rfl
  constructor
  · refine ⟨⟨[(("otherSource" : String), ("Expected string, received null" : String))],
      ?_, ?_⟩, ?_, ?_⟩
    · simp only [addLeadAction, hval0issues]
      rfl
    · exact List.mem_singleton.mpr rfl
    · simp only [addLeadAction, hval0issues]
      rfl
    · simp only [addLeadAction, hval0issues]
      rfl
  · refine ⟨?_, ?_, ?_⟩
    · simp only [addLeadAction, hval1]
      rfl
    · simp only [addLeadAction, hval1]
      rfl
    · simp only [addLeadAction, hval1, List.isEmpty_nil, if_true, addLead]
      refine ⟨_, rfl, ?_⟩
      simp [hsrc]

/-- Closed instance of the conditional-source invariant. -/
theorem addLeadAction_conditional_source_witness :
    (addLeadAction sampleStore1 { cAddInput with otherSource := none } 7).2 =
        sampleStore1 ∧
      ∃ newLead,
        (addLeadAction sampleStore1 { cAddInput with otherSource := some ("Refer") } 7).2.leads =
          newLead :: sampleStore1.leads ∧ newLead.source = "Refer" := by
  have h := addLeadAction_conditional_source sampleStore1 cAddInput 7 "Refer"
    (by decide) (by decide) (by decide)
  exact ⟨h.1.2.2, h.2.2.2⟩

/-! ## Claim C7 -/

/-- The dashboard predicate, spelled as the claim states it. -/
theorem missed_follow_up_qualifies_iff (todayStart : Int) (l : Lead) :
    (hasTodaysFollowUp todayStart l && !hasBeenContactedToday todayStart l) = true ↔
      ((∃ t ∈ l.tasks, t.type = .FollowUp ∧ t.status = .Pending ∧
          todayStart ≤ t.dueDate ∧ t.dueDate < todayStart + msPerDay) ∧
        ∀ a ∈ l.activities,
          ¬(todayStart ≤ a.timestamp ∧ a.timestamp < todayStart + msPerDay)) := by
  have hnot : ∀ a : Activity, (isToday todayStart a.timestamp = false) ↔
      ¬(todayStart ≤ a.timestamp ∧ a.timestamp < todayStart + msPerDay) := by
    intro a
    rw [← Bool.not_eq_true]
    simp [isToday]
  simp only [Bool.and_eq_true, Bool.not_eq_true', hasTodaysFollowUp,
    hasBeenContactedToday, List.any_eq_true, List.any_eq_false,
    Bool.and_eq_true, beq_iff_eq, isToday, decide_eq_true_eq]
  constructor
  · rintro ⟨⟨t, ht, ⟨⟨h1, h2⟩, h3, h4⟩⟩, h5⟩
    refine ⟨⟨t, ht, h1, h2, h3, h4⟩, ?_⟩
    intro a ha hcontra
    have h6 := h5 a ha
    rcases hcontra with ⟨c1, c2⟩
    simp [c1, c2] at h6
  · rintro ⟨⟨t, ht, h1, h2, h3, h4⟩, h5⟩
    refine ⟨⟨t, ht, ⟨⟨h1, h2⟩, h3, h4⟩⟩, ?_⟩
    intro a ha
    have h6 := h5 a ha
    by_cases c1 : todayStart ≤ a.timestamp
    · by_cases c2 : a.timestamp < todayStart + msPerDay
      · exact absurd ⟨c1, c2⟩ h6
      · simp [c2]
    · simp [c1]

/-- **C7** (confirmed).  The dashboard surfaces a lead iff it is the first
lead in collection order with a pending Follow-up task due on the current
calendar day and no activity timestamped on the current calendar day; at most
one lead is surfaced because `find` returns the first match only. -/
theorem missedFollowUpLead_first_qualifying (todayStart : Int)
    (leads : List Lead) (l : Lead) :
    missedFollowUpLead todayStart leads = some l ↔
      ((∃ t ∈ l.tasks, t.type = .FollowUp ∧ t.status = .Pending ∧
          todayStart ≤ t.dueDate ∧ t.dueDate < todayStart + msPerDay) ∧
        (∀ a ∈ l.activities,
          ¬(todayStart ≤ a.timestamp ∧ a.timestamp < todayStart + msPerDay)) ∧
        ∃ pre post, leads = pre ++ l :: post ∧
          ∀ l' ∈ pre,
            ¬((∃ t ∈ l'.tasks, t.type = .FollowUp ∧ t.status = .Pending ∧
                todayStart ≤ t.dueDate ∧ t.dueDate < todayStart + msPerDay) ∧
              ∀ a ∈ l'.activities,
                ¬(todayStart ≤ a.timestamp ∧ a.timestamp < todayStart + msPerDay))) := by
  rw [missedFollowUpLead, List.find?_eq_some]
  constructor
  · rintro ⟨hq, pre, post, hsplit, hpre⟩
    rcases (missed_follow_up_qualifies_iff todayStart l).mp hq with ⟨h1, h2⟩
    refine ⟨h1, h2, pre, post, hsplit, ?_⟩
    intro l' hl' hcontra
    have h0 := hpre l' hl'
    rw [Bool.not_eq_true'] at h0
    have h3 := (missed_follow_up_qualifies_iff todayStart l').mpr hcontra
    rw [h0] at h3
    exact Bool.false_ne_true h3
  · rintro ⟨h1, h2, pre, post, hsplit, hpre⟩
    refine ⟨(missed_follow_up_qualifies_iff todayStart l).mpr ⟨h1, h2⟩,
      pre, post, hsplit, ?_⟩
    intro l' hl'
    rw [Bool.not_eq_true']
    cases h3 : hasTodaysFollowUp todayStart l' &&
        !hasBeenContactedToday todayStart l' with
    | false => rfl
    | true =>
      exact absurd ((missed_follow_up_qualifies_iff todayStart l').mp h3)
        (hpre l' hl')

/-! ## Claim C5 -/

/-- The comparator-induced order is total. -/
theorem leadLE_total (a b : Lead) : leadLE a b = true ∨ leadLE b a = true := by
  rw [leadLE, leadLE, decide_eq_true_eq, decide_eq_true_eq]
  rcases ha : getNextFollowUp a with _ | ta <;>
    rcases hb : getNextFollowUp b with _ | tb <;>
      simp only [leadCmp, ha, hb] <;> (try split_ifs) <;> omega

/-- The comparator-induced order is transitive. -/
theorem leadLE_trans (a b c : Lead) (hab : leadLE a b = true)
    (hbc : leadLE b c = true) : leadLE a c = true := by
  rw [leadLE, decide_eq_true_eq] at hab hbc ⊢
  rcases ha : getNextFollowUp a with _ | ta <;>
    rcases hb : getNextFollowUp b with _ | tb <;>
      rcases hc : getNextFollowUp c with _ | tc <;>
        simp only [leadCmp, ha, hb, hc] at hab hbc ⊢ <;>
          (try split_ifs at hab hbc ⊢) <;> omega

/-- A lead has a next follow-up exactly when it owns a pending Follow-up
task. -/
theorem getNextFollowUp_isSome_iff (a : Lead) :
    (getNextFollowUp a).isSome = true ↔
      ∃ t ∈ a.tasks, t.type = .FollowUp ∧ t.status = .Pending := by
  rw [getNextFollowUp, List.head?_isSome]
  have hlen : ((a.tasks.filter
        (fun t => t.type == TaskType.FollowUp && t.status == TaskStatus.Pending)).mergeSort
      (fun x y => decide (x.dueDate ≤ y.dueDate))).length =
      (a.tasks.filter
        (fun t => t.type == TaskType.FollowUp && t.status == TaskStatus.Pending)).length :=
    (List.mergeSort_perm _ _).length_eq
  constructor
  · intro h
    have h1 : (a.tasks.filter
        (fun t => t.type == TaskType.FollowUp && t.status == TaskStatus.Pending)) ≠ [] := by
      intro h0
      apply h
      apply List.length_eq_zero.mp
      rw [hlen, h0]
      rfl
    obtain ⟨t, ht⟩ := List.exists_mem_of_ne_nil _ h1
    rcases List.mem_filter.mp ht with ⟨htasks, hpred⟩
    simp only [Bool.and_eq_true] at hpred
    rcases hpred with ⟨h2, h3⟩
    exact ⟨t, htasks, beq_iff_eq.mp h2, beq_iff_eq.mp h3⟩
  · rintro ⟨t, htasks, h2, h3⟩
    intro h0
    have ht : t ∈ (a.tasks.filter
        (fun t => t.type == TaskType.FollowUp && t.status == TaskStatus.Pending)) := by
      rw [List.mem_filter]
      exact ⟨htasks, by rw [h2, h3]; rfl⟩
    have := List.ne_nil_of_mem ht
    apply this
    apply List.length_eq_zero.mp
    rw [← hlen, h0]
    rfl

/-- **C5** (confirmed).  The priority sort is the total preorder with the
claimed precedence: leads with a pending Follow-up before leads without one;
among leads with one, by the next follow-up's priority rank (High before
Medium before Low) and then by its due date ascending; among leads without
one, by most-recent-activity-or-creation time descending; and
`sortLeadsByPriority` returns a permutation of its input sorted by exactly
this order. -/
theorem sortLeadsByPriority_spec :
    (∀ a : Lead, (getNextFollowUp a).isSome = true ↔
        ∃ t ∈ a.tasks, t.type = .FollowUp ∧ t.status = .Pending) ∧
      (∀ a b : Lead, leadLE a b = true ∨ leadLE b a = true) ∧
      (∀ a b c : Lead, leadLE a b = true → leadLE b c = true → leadLE a c = true) ∧
      (∀ a b : Lead, ∀ ta : Task, getNextFollowUp a = some ta →
        getNextFollowUp b = none → leadCmp a b < 0) ∧
      (∀ a b : Lead, ∀ ta tb : Task, getNextFollowUp a = some ta →
        getNextFollowUp b = some tb →
        ((priorityOrder ta.priority < priorityOrder tb.priority → leadCmp a b < 0) ∧
          (priorityOrder ta.priority = priorityOrder tb.priority →
            (leadLE a b = true ↔ ta.dueDate ≤ tb.dueDate)))) ∧
      (∀ a b : Lead, getNextFollowUp a = none → getNextFollowUp b = none →
        (leadLE a b = true ↔ lastActivityTime b ≤ lastActivityTime a)) ∧
      ∀ leads : List Lead, (sortLeadsByPriority leads).Perm leads ∧
        (sortLeadsByPriority leads).Pairwise (fun a b => leadLE a b = true) := by
  refine ⟨getNextFollowUp_isSome_iff, leadLE_total, leadLE_trans, ?_, ?_, ?_, ?_⟩
  · intro a b ta ha hb
    simp only [leadCmp, ha, hb]
    omega
  · intro a b ta tb ha hb
    constructor
    · intro hlt
      simp only [leadCmp, ha, hb]
      rw [if_pos (by omega)]
      omega
    · intro heq
      rw [leadLE, decide_eq_true_eq]
      simp only [leadCmp, ha, hb]
      rw [if_neg (by omega)]
      constructor
      · intro h1
        omega
      · intro h1
        omega
  · intro a b ha hb
    rw [leadLE, decide_eq_true_eq]
    simp only [leadCmp, ha, hb]
    constructor
    · intro h1
      omega
    · intro h1
      omega
  · intro leads
    refine ⟨List.mergeSort_perm leads leadLE, ?_⟩
    exact List.sorted_mergeSort (fun x y z => leadLE_trans x y z)
      (fun x y => (Bool.or_eq_true _ _).symm ▸ (leadLE_total x y)) leads

/-- A pending High-priority follow-up task due at time 10. -/
def kbTask : Task :=
  { id := "TSK-1"
    leadId := "010"
    type := .FollowUp
    dueDate := 10
    status := .Pending
    priority := .High
    notes := "follow up"
    assignedUserId := "user-5" }

/-- A lead owning the pending follow-up task. -/
def kbLeadFollowUp : Lead :=
  { mkLead "010" with tasks := [kbTask] }

/-- A lead with no tasks at all. -/
def kbLeadNoFollowUp : Lead :=
  mkLead "011"

/-- Closed instance of the priority-sort precedence: the lead with a pending
follow-up sorts strictly before the lead without one. -/
theorem sortLeadsByPriority_spec_witness :
    leadCmp kbLeadFollowUp kbLeadNoFollowUp < 0 := by
  have h := sortLeadsByPriority_spec
  refine h.2.2.2.1 kbLeadFollowUp kbLeadNoFollowUp kbTask ?_ ?_
  · rw [getNextFollowUp]
    simp [kbLeadFollowUp, kbTask, mkLead, List.filter]
  · rw [getNextFollowUp]
    simp [kbLeadNoFollowUp, mkLead]

/-! ## Claim C8 -/

/-- **C8** (confirmed).  Updating only `assignedUserId` of a lead present in
the store and re-reading it yields exactly the new value, with every other
field identical to its pre-update value (the result is `l` with only
`assignedUserId` replaced); the updated lead is also the value the store
operation returns. -/
theorem updateLead_roundtrip_frame (st : Store) (i v : String) (l : Lead)
    (h : findLead st i = some l) :
    (updateLead st { id := i, assignedUserId := some v }).1 =
        some { l with assignedUserId := v } ∧
      findLead (updateLead st { id := i, assignedUserId := some v }).2 i =
        some { l with assignedUserId := v } := by
  obtain ⟨leadsL⟩ := st
  rw [findLead, List.find?_eq_some] at h
  rcases h with ⟨hbeq, pre, post, hsplit, hpre⟩
  simp only at hsplit
  subst hsplit
  have hid : l.id = i := beq_iff_eq.mp hbeq
  have hpre' : ∀ a ∈ pre, (a.id == i) = false := by
    intro a ha
    have h0 := hpre a ha
    rwa [Bool.not_eq_true'] at h0
  have hlen : pre.length < (pre ++ l :: post).length := by
    simp
  have hget : (pre ++ l :: post)[pre.length] = l := by
    rw [List.getElem_append_right (Nat.le_refl pre.length)]
    simp
  have hfind : (pre ++ l :: post).findIdx? (fun x => x.id == i) = some pre.length := by
    rw [List.findIdx?_eq_some_iff_getElem]
    refine ⟨hlen, by rw [hget]; exact hbeq, ?_⟩
    intro j hj
    have hjpre : j < pre.length := hj
    have hj2 : (pre ++ l :: post)[j] = pre[j] := List.getElem_append_left hjpre
    rw [hj2]
    simp [hpre' pre[j] (List.getElem_mem hjpre)]
  have hgetq : (pre ++ l :: post)[pre.length]? = some l := by
    rw [List.getElem?_eq_getElem hlen, hget]
  set u : LeadUpdate := { id := i, assignedUserId := some v } with hu
  have hmerge : applyLeadUpdate l u = { l with assignedUserId := v } := by
    simp [applyLeadUpdate, hu, mergeOpt, hid]
  have hset : (pre ++ l :: post).set pre.length (applyLeadUpdate l u) =
      pre ++ applyLeadUpdate l u :: post := by
    rw [List.set_append_right _ _ (Nat.le_refl pre.length)]
    simp
  have hres : updateLead { leads := pre ++ l :: post } u =
      (some (applyLeadUpdate l u), { leads := pre ++ applyLeadUpdate l u :: post }) := by
    rw [updateLead]
    simp only [hfind, hgetq, hset]
  rw [hres, hmerge]
  refine ⟨rfl, ?_⟩
  rw [findLead]
  simp only
  rw [List.find?_append]
  have h1 : pre.find? (fun x => x.id == i) = none := by
    rw [List.find?_eq_none]
    intro a ha
    simp [hpre' a ha]
  rw [h1]
  have h2 : (({ l with assignedUserId := v } : Lead).id == i) = true := by
    simp [hid]
  rw [Option.none_or]
  exact List.find?_cons_of_pos post h2

/-- Closed instance of the round-trip frame property: reassigning lead `001`
in the sample store and re-reading it yields the lead with only
`assignedUserId` changed. -/
theorem updateLead_roundtrip_frame_witness :
    findLead (updateLead sampleStore1
        { id := "001", assignedUserId := some "user-9" }).2 "001" =
      some { mkLead "001" with assignedUserId := "user-9" } :=
  (updateLead_roundtrip_frame sampleStore1 "001" "user-9" (mkLead "001")
    (by decide)).2

/-! ## Claim C9 -/

/-- **C9** (confirmed).  After `bulkDeleteLeads [id1, id2]` both ids report
not-found, and every lookup of an id different from both returns exactly what
it returned before the deletion (the surviving leads are unchanged). -/
theorem bulkDeleteLeads_completeness (st : Store) (id1 id2 : String)
    (_h1 : (findLead st id1).isSome = true) (_h2 : (findLead st id2).isSome = true) :
    findLead (bulkDeleteLeads st [id1, id2]) id1 = none ∧
      findLead (bulkDeleteLeads st [id1, id2]) id2 = none ∧
      ∀ x : String, x ≠ id1 → x ≠ id2 →
        findLead (bulkDeleteLeads st [id1, id2]) x = findLead st x := by
  refine ⟨?_, ?_, ?_⟩
  · exact find?_filter_deleted_id st.leads [id1, id2] id1 (by simp)
  · exact find?_filter_deleted_id st.leads [id1, id2] id2 (by simp)
  · intro x hx1 hx2
    exact find?_filter_out_other_ids st.leads [id1, id2] x (by simp [hx1, hx2])

/-! ## Claim C2 -/

/-- An update request whose id matches no stored lead. -/
def cNotFoundInput : UpdateLeadFormInput :=
  { id := some ("999")
    name := some ("Bo")
    email := some ("bo@x.c")
    assignedUserId := some ("user-2")
    source := some ("Website") }

/-- **C2** refutation.  The claim says a not-found update surfaces as a
failure message; evaluating the code on a store holding only lead `001` and
an update for id `999` shows the action returns the success confirmation and
no error, while the store is unchanged (the store-level `updateLead` returns
`null`, which the action never inspects). -/
theorem updateLeadAction_notFound_counterexample :
    findLead sampleStore1 "999" = none ∧
      (updateLeadAction sampleStore1 cNotFoundInput).1 =
        { message := some ("Lead \"Bo\" updated successfully."), errors := none } ∧
      (updateLeadAction sampleStore1 cNotFoundInput).2 = sampleStore1 := by
  decide

/-- **C2** (corrected).  For a validated update request whose id matches no
lead: the store-level `updateLead` signals not-found by returning `null`
(`none`) and leaves the store untouched, and the mutation layer — which never
inspects that return value — answers with the success confirmation string
rather than a failure message; the store's collections are unchanged by the
attempt. -/
theorem updateLeadAction_notFound_is_silent (st : Store) (i : UpdateLeadFormInput)
    (hval : (updateLeadValidationIssues i).isEmpty = true)
    (hnf : findLead st (i.id.getD ("")) = none) :
    (∀ u : LeadUpdate, u.id = i.id.getD ("") → updateLead st u = (none, st)) ∧
      (updateLeadAction st i).1 =
        { message := some ("Lead \"" ++ i.name.getD ("") ++ "\" updated successfully.")
          errors := none } ∧
      (updateLeadAction st i).2 = st := by
  have hstore : ∀ u : LeadUpdate, u.id = i.id.getD ("") →
      updateLead st u = (none, st) := by
    intro u hu
    rw [updateLead]
    have hidx : st.leads.findIdx? (fun l => l.id == u.id) = none := by
      rw [List.findIdx?_eq_none_iff]
      intro x hx
      rw [findLead, List.find?_eq_none] at hnf
      have hx2 := hnf x hx
      rw [hu]
      cases hb : (x.id == i.id.getD ("")) with
      | false => rfl
      | true => exact absurd hb hx2
    rw [hidx]
  refine ⟨hstore, ?_, ?_⟩
  · simp only [updateLeadAction, hval, if_true]
  · simp only [updateLeadAction, hval, if_true]
    rw [hstore _ rfl]

/-- Closed instance of the amended C2 statement. -/
theorem updateLeadAction_notFound_witness :
    (updateLeadAction sampleStore1 cNotFoundInput).2 = sampleStore1 :=
  (updateLeadAction_notFound_is_silent sampleStore1 cNotFoundInput
    (by decide) (by decide)).2.2

/-! ## Claim C10 -/

/-- `KanbanStage.ofStr` inverts `KanbanStage.str`. -/
theorem KanbanStage.ofStr_str (s : KanbanStage) : KanbanStage.ofStr s.str = some s := by
  cases s <;> rfl

/-- Stage names are never the empty string. -/
theorem KanbanStage.str_isEmpty_eq_false (s : KanbanStage) : s.str.isEmpty = false := by
  cases s <;> rfl

/-- **C10** (confirmed).  A bulk-update request carrying both a stage and an
assignee (and no distribution list) applies both fields in one merged update
to exactly the leads whose ids are in the request's id list, and the returned
confirmation uses the stage wording, not the assignment wording. -/
theorem bulkUpdateAction_stage_and_assignee (st : Store)
    (users : List (String × String)) (ids : List String) (s : KanbanStage)
    (uid : String) (huid : uid ≠ "") :
    bulkUpdateLeadsAction st users
        { leadIds := ids, stage := some s.str, assignedUserId := some uid,
          distributionList := none } =
      ({ message := some (Nat.repr ids.length ++ " lead(s) moved to " ++ s.str ++ "."),
         error := none },
       { leads := st.leads.map (fun l =>
           if ids.contains l.id then { l with stage := s, assignedUserId := uid }
           else l) }) := by
  have hue : uid.isEmpty = false := by
    rw [← Bool.not_eq_true, String.isEmpty_iff]
    exact huid
  simp only [bulkUpdateLeadsAction, jsOrUndefined, KanbanStage.str_isEmpty_eq_false,
    Bool.false_eq_true, if_false, KanbanStage.ofStr_str, hue, bulkUpdateSingle,
    bulkUpdateLeads, Option.getD_some]
  simp

/-- Closed instance of the merged stage-and-assignee bulk update. -/
theorem bulkUpdateAction_stage_and_assignee_witness :
    bulkUpdateLeadsAction sampleStore2 []
        { leadIds := ["001"], stage := some ("Qualified"),
          assignedUserId := some ("user-5"), distributionList := none } =
      ({ message := some ("1 lead(s) moved to Qualified."), error := none },
       { leads := [{ mkLead "001" with stage := .Qualified, assignedUserId := "user-5" },
                   mkLead "002"] }) := by
  have h := bulkUpdateAction_stage_and_assignee sampleStore2 [] ["001"]
    KanbanStage.Qualified "user-5" (by decide)
  rw [show (some ("Qualified") : Option String) = some KanbanStage.Qualified.str from rfl]
  rw [h]
  decide

/-- Closed instance of bulk-delete completeness on the three-lead store. -/
theorem bulkDeleteLeads_completeness_witness :
    findLead (bulkDeleteLeads sampleStore3 ["001", "002"]) "001" = none ∧
      findLead (bulkDeleteLeads sampleStore3 ["001", "002"]) "003" =
        findLead sampleStore3 "003" := by
  have h := bulkDeleteLeads_completeness sampleStore3 "001" "002"
    (by decide) (by decide)
  exact ⟨h.1, h.2.2 "003" (by decide) (by decide)⟩

end Spruce
